import Mathlib

/-!
Shallow embedding of `cambridge_crime_map.py`.

The script is a linear pipeline: read a CSV of crime incidents, drop rows
whose coordinates are missing or non-numeric, aggregate by
(lat, lon, crime) and by (lat, lon), assign colors from a fixed palette of
20 hex strings by first-appearance order, and render a map with one circle
marker per aggregate row plus a legend.

Modelling conventions:
- a CSV cell for a coordinate is `RawCoord`: absent (pandas NaN), a
  non-numeric string (coerced to NaN by `pd.to_numeric(errors='coerce')`),
  or a numeric value, modelled as an exact rational;
- dataframes are lists of records in row order; `groupby` sorts its keys
  (pandas default `sort=True`) and is stable inside each group;
- pandas `agg('first')` takes the first NON-null value of the column within
  the group (it skips NaN), which is embedded literally below;
- the float expression `(t - min) / (max - min)` evaluates to NaN when
  `max = min` (numpy emits NaN rather than raising); an undefined (NaN)
  radius is embedded as `none`;
- `pd.read_csv` failure (missing/unreadable/unparseable file) is the
  spec's `DataSourceError`; a source that opens and parses is `some rows`.
-/

namespace CambridgeCrimeMap

/-- A raw coordinate cell of the CSV: absent (NaN after `read_csv`),
a non-numeric string, or a numeric value. -/
inductive RawCoord where
  | absent : RawCoord
  | nonNumeric (s : String) : RawCoord
  | numeric (q : ℚ) : RawCoord
deriving DecidableEq

/-- `pd.to_numeric(x, errors='coerce')` on one cell: numeric cells parse,
everything else becomes NaN (`none`). -/
def toNumeric : RawCoord → Option ℚ
  | .numeric q => some q
  | _ => none

/-- `True` when the cell is present (not NaN), as tested by the first
`dropna(subset=['Reporting Area Lat', 'Reporting Area Lon'])`. -/
def RawCoord.present : RawCoord → Bool
  | .absent => false
  | _ => true

/-- One raw CSV row, with the columns the script reads. -/
structure RawRow where
  crime : String
  reportingAreaLat : RawCoord
  reportingAreaLon : RawCoord
  neighborhood : Option String
  location : Option String
  reportingArea : Option String
deriving DecidableEq

/-- A cleaned incident: both coordinates parsed to numbers. -/
structure Incident where
  lat : ℚ
  lon : ℚ
  crime : String
  neighborhood : Option String
  location : Option String
  reportingArea : Option String
deriving DecidableEq

/-- `load_and_process_data`: drop rows with an absent coordinate, coerce
coordinates to numbers, and drop rows where coercion produced NaN. -/
def load_and_process_data (rows : List RawRow) : List Incident :=
  let dropped := rows.filter fun r =>
    r.reportingAreaLat.present && r.reportingAreaLon.present
  dropped.filterMap fun r =>
    match toNumeric r.reportingAreaLat, toNumeric r.reportingAreaLon with
    | some la, some lo =>
        some ⟨la, lo, r.crime, r.neighborhood, r.location, r.reportingArea⟩
    | _, _ => none

/-- Grouping key of `df.groupby(['lat', 'lon', 'Crime'])`. -/
abbrev CrimeKey := ℚ × ℚ × String

def Incident.ckey (r : Incident) : CrimeKey := (r.lat, r.lon, r.crime)

/-- Grouping key of `df.groupby(['lat', 'lon'])`. -/
def Incident.coordKey (r : Incident) : ℚ × ℚ := (r.lat, r.lon)

/-- First-appearance deduplication (pandas key extraction / `Series.unique`),
with an accumulator of already-seen values. -/
def uniqueFirstAux {α : Type} [DecidableEq α] (seen : List α) : List α → List α
  | [] => []
  | a :: l =>
      if a ∈ seen then uniqueFirstAux seen l
      else a :: uniqueFirstAux (a :: seen) l

/-- First-appearance deduplication of a list. -/
def uniqueFirst {α : Type} [DecidableEq α] (l : List α) : List α :=
  uniqueFirstAux [] l

/-- Lexicographic order on grouping keys; pandas `groupby` (default
`sort=True`) emits its groups in this order. -/
def keyLE (k₁ k₂ : CrimeKey) : Prop :=
  k₁.1 < k₂.1 ∨ (k₁.1 = k₂.1 ∧
    (k₁.2.1 < k₂.2.1 ∨ (k₁.2.1 = k₂.2.1 ∧ k₁.2.2 ≤ k₂.2.2)))

instance : DecidableRel keyLE := fun k₁ k₂ => by
  unfold keyLE; infer_instance

/-- The distinct `(lat, lon, Crime)` keys of the cleaned data, in the
sorted order pandas `groupby` produces. -/
def sortedCrimeKeys (df : List Incident) : List CrimeKey :=
  List.insertionSort keyLE (uniqueFirst (df.map Incident.ckey))

/-- `frequency` of one group: the number of incidents with this
`(lat, lon, Crime)` key. -/
def crimeFrequency (df : List Incident) (k : CrimeKey) : ℕ :=
  df.countP fun r => decide (r.ckey = k)

/-- `total_incidents` of a coordinate: the number of incidents there,
over all crime types. -/
def locationTotal (df : List Incident) (p : ℚ × ℚ) : ℕ :=
  df.countP fun r => decide (r.coordKey = p)

/-- `groupby(['lat','lon']).agg({col: 'first'})` for one descriptive
column: the first non-null value of the column among the incidents at the
coordinate, in row order (pandas `first` skips NaN). -/
def firstAgg (df : List Incident) (p : ℚ × ℚ)
    (field : Incident → Option String) : Option String :=
  ((df.filter fun r => decide (r.coordKey = p)).filterMap field).head?

/-- One row of the aggregated dataframe: the grouping key, the two counts,
and the descriptive columns merged on `(lat, lon)`. -/
structure AggRow where
  lat : ℚ
  lon : ℚ
  crime : String
  frequency : ℕ
  total_incidents : ℕ
  neighborhood : Option String
  location : Option String
  reportingArea : Option String
deriving DecidableEq

/-- The aggregate row of one `(lat, lon, Crime)` key. -/
def aggRowOfKey (df : List Incident) (k : CrimeKey) : AggRow :=
  { lat := k.1
    lon := k.2.1
    crime := k.2.2
    frequency := crimeFrequency df k
    total_incidents := locationTotal df (k.1, k.2.1)
    neighborhood := firstAgg df (k.1, k.2.1) Incident.neighborhood
    location := firstAgg df (k.1, k.2.1) Incident.location
    reportingArea := firstAgg df (k.1, k.2.1) Incident.reportingArea }

/-- `aggregate_by_location_and_crime`: one row per distinct
`(lat, lon, Crime)` key, in pandas key-sorted order, carrying `frequency`,
`total_incidents` merged on `(lat, lon)`, and the first-seen descriptive
fields of the coordinate. -/
def aggregate_by_location_and_crime (df : List Incident) : List AggRow :=
  (sortedCrimeKeys df).map (aggRowOfKey df)

def AggRow.ckey (a : AggRow) : CrimeKey := (a.lat, a.lon, a.crime)

def AggRow.coordOf (a : AggRow) : ℚ × ℚ := (a.lat, a.lon)

/-- `get_color_palette`: the fixed ordered list of 20 hex colors. -/
def get_color_palette : List String :=
  ["#FF6B6B", "#4ECDC4", "#45B7D1", "#96CEB4", "#FCEA4B",
   "#FF8A80", "#9C27B0", "#FF5722", "#795548", "#607D8B",
   "#E91E63", "#00BCD4", "#8BC34A", "#FFC107", "#FF9800",
   "#673AB7", "#3F51B5", "#2196F3", "#009688", "#4CAF50"]

/-- `aggregated['Crime'].unique()`: distinct crime types in
first-appearance order over the aggregate rows. -/
def crime_types (agg : List AggRow) : List String :=
  uniqueFirst (agg.map AggRow.crime)

/-- `color_map[crime]`: the dict built by
`{crime: colors[i % len(colors)] for i, crime in enumerate(crime_types)}`;
`none` models a `KeyError` for a crime type outside the dict. -/
def color_map (agg : List AggRow) (crime : String) : Option String :=
  ((crime_types agg).findIdx? (fun c => c == crime)).bind fun i =>
    get_color_palette[i % get_color_palette.length]?

/-- `aggregated['total_incidents']` as a list. -/
def totalsOf (agg : List AggRow) : List ℕ :=
  agg.map AggRow.total_incidents

/-- `5 + (t - min_total) / (max_total - min_total) * 20`, over exact
rationals; when `max_total = min_total` the source evaluates `0 / 0`,
which numpy turns into NaN — embedded as `none`. -/
def marker_radius (minT maxT t : ℕ) : Option ℚ :=
  if (maxT : ℚ) - (minT : ℚ) = 0 then none
  else some (5 + ((t : ℚ) - (minT : ℚ)) / ((maxT : ℚ) - (minT : ℚ)) * 20)

/-- One rendered `folium.CircleMarker`. -/
structure Marker where
  lat : ℚ
  lon : ℚ
  radius : Option ℚ
  color : Option String
deriving DecidableEq

/-- The marker loop of `create_cambridge_crime_map`: `min`/`max` of
`total_incidents` over the aggregates, then one circle marker per
aggregate row. -/
def markersOf (agg : List AggRow) : List Marker :=
  let maxT := (totalsOf agg).max?.getD 0
  let minT := (totalsOf agg).min?.getD 0
  agg.map fun a =>
    { lat := a.lat
      lon := a.lon
      radius := marker_radius minT maxT a.total_incidents
      color := color_map agg a.crime }

/-- `sorted(crime_types)`: the legend enumerates crime types in
alphabetical order. -/
def legendCrimeTypes (agg : List AggRow) : List String :=
  List.insertionSort (fun a b : String => a ≤ b) (crime_types agg)

/-- `len(aggregated[aggregated['Crime'] == crime_type])`: the count shown
next to a legend entry. -/
def legendLocationCount (agg : List AggRow) (c : String) : ℕ :=
  (agg.filter fun a => decide (a.crime = c)).length

/-- The visible text of one legend entry:
`f"{crime_type} ({count} locations)"`. -/
def legendEntryText (c : String) (n : ℕ) : String :=
  c ++ " (" ++ toString n ++ " locations)"

/-- The legend body: one entry per crime type, sorted alphabetically. -/
def legendEntries (agg : List AggRow) : List String :=
  (legendCrimeTypes agg).map fun c =>
    legendEntryText c (legendLocationCount agg c)

/-- The rendered map document: center, markers and legend. -/
structure MapDocument where
  centerLat : ℚ
  centerLon : ℚ
  markers : List Marker
  legend : List String
deriving DecidableEq

/-- `create_cambridge_crime_map` applied to already-cleaned data:
aggregate, then render markers and legend around the mean coordinate. -/
def create_cambridge_crime_map (df : List Incident) : MapDocument :=
  let aggregated := aggregate_by_location_and_crime df
  { centerLat := (df.map Incident.lat).sum / df.length
    centerLon := (df.map Incident.lon).sum / df.length
    markers := markersOf aggregated
    legend := legendEntries aggregated }

/-- The spec's name for the fatal failure of `pd.read_csv`: source file
missing, unreadable, or structurally unparseable. -/
inductive DataSourceError where
  | unreadable : DataSourceError
deriving DecidableEq

/-- `pd.read_csv`: a source that cannot be opened or parsed (`none`)
raises; otherwise it yields the parsed rows. -/
def read_csv (src : Option (List RawRow)) :
    Except DataSourceError (List RawRow) :=
  match src with
  | none => .error .unreadable
  | some rows => .ok rows

/-- `main`: load the source, build the map, and (on success) write the
output document; an exception propagates before any output is written. -/
def main_run (src : Option (List RawRow)) :
    Except DataSourceError MapDocument :=
  match read_csv src with
  | .error e => .error e
  | .ok rows => .ok (create_cambridge_crime_map (load_and_process_data rows))

/-- The output file `main` leaves behind: the rendered document when the
run succeeded, nothing when it aborted. -/
def written_output (src : Option (List RawRow)) : Option MapDocument :=
  (main_run src).toOption

/-- Modelled from the spec's words, for comparison with the code: the
FIRST incident record at a coordinate in the cleaned collection's
iteration order (the spec's reading of where the aggregator's descriptive
fields come from). The code instead uses pandas `'first'`, which skips
nulls. -/
def specFirstIncidentAt (df : List Incident) (p : ℚ × ℚ) : Option Incident :=
  (df.filter fun r => decide (r.coordKey = p)).head?

/-! ### Concrete inputs used in the spec's examples and in witnesses -/

/-- The spec's end-to-end scenario: three incidents at two coordinates. -/
def scenarioIncidents : List Incident :=
  [⟨42.37, -71.10, "Theft", none, none, none⟩,
   ⟨42.37, -71.10, "Theft", none, none, none⟩,
   ⟨42.38, -71.11, "Assault", none, none, none⟩]

/-- The single cleaned incident exercising the degenerate
`min_total = max_total` sizing range. -/
def loneIncident : Incident := ⟨42.37, -71.10, "Theft", none, none, none⟩

/-- The spec's loader example: a valid row. -/
def exampleRowValid : RawRow :=
  ⟨"A", .numeric 42.37, .numeric (-71.10), none, none, none⟩

/-- The spec's loader example: a row whose latitude is absent. -/
def exampleRowMissingLat : RawRow :=
  ⟨"B", .absent, .numeric (-71.10), none, none, none⟩

/-- The incident surviving the loader example. -/
def exampleIncidentValid : Incident :=
  ⟨42.37, -71.10, "A", none, none, none⟩

/-- A small cleaned collection at integer coordinates: one crime type
twice at one coordinate, another crime type once elsewhere. -/
def demoDf : List Incident :=
  [⟨1, 2, "Theft", none, none, none⟩,
   ⟨1, 2, "Theft", none, none, none⟩,
   ⟨3, 4, "Burglary", none, none, none⟩]

/-- Two incidents at one coordinate: the first record has no descriptive
fields, the second has all three. -/
def exC6df : List Incident :=
  [⟨1, 2, "Theft", none, none, none⟩,
   ⟨1, 2, "Theft", some "Riverside", some "Mass Ave", some "401"⟩]

/-- Two incidents at one coordinate whose FIRST record carries a non-null
neighborhood. -/
def exC6bDf : List Incident :=
  [⟨1, 2, "Theft", some "Riverside", none, none⟩,
   ⟨1, 2, "Theft", none, some "Mass Ave", none⟩]

/-! ### Helper lemmas about first-appearance deduplication -/

theorem mem_uniqueFirstAux {α : Type} [DecidableEq α] {a : α} :
    ∀ {l seen : List α}, a ∈ uniqueFirstAux seen l ↔ a ∈ l ∧ a ∉ seen := by
  intro l
  induction l with
  | nil => intro seen; simp [uniqueFirstAux]
  | cons x xs ih =>
      intro seen
      by_cases hx : x ∈ seen
      · rw [uniqueFirstAux, if_pos hx, ih]
        constructor
        · rintro ⟨h₁, h₂⟩; exact ⟨List.mem_cons_of_mem _ h₁, h₂⟩
        · rintro ⟨h₁, h₂⟩
          rcases List.mem_cons.mp h₁ with rfl | h₁
          · exact absurd hx h₂
          · exact ⟨h₁, h₂⟩
      · rw [uniqueFirstAux, if_neg hx]
        constructor
        · intro hmem
          rcases List.mem_cons.mp hmem with rfl | hmem
          · exact ⟨List.mem_cons_self _ _, hx⟩
          · obtain ⟨h₁, h₂⟩ := ih.mp hmem
            exact ⟨List.mem_cons_of_mem _ h₁,
              fun hs => h₂ (List.mem_cons_of_mem _ hs)⟩
        · rintro ⟨h₁, h₂⟩
          rcases List.mem_cons.mp h₁ with rfl | h₁
          · exact List.mem_cons_self _ _
          · by_cases hax : a = x
            · exact hax ▸ List.mem_cons_self _ _
            · refine List.mem_cons_of_mem _ (ih.mpr ⟨h₁, fun hs => ?_⟩)
              rcases List.mem_cons.mp hs with h | h
              · exact hax h
              · exact h₂ h

theorem nodup_uniqueFirstAux {α : Type} [DecidableEq α] :
    ∀ (l seen : List α), (uniqueFirstAux seen l).Nodup := by
  intro l
  induction l with
  | nil => intro seen; simp [uniqueFirstAux]
  | cons x xs ih =>
      intro seen
      by_cases hx : x ∈ seen
      · simpa [uniqueFirstAux, if_pos hx] using ih seen
      · rw [uniqueFirstAux, if_neg hx]
        refine List.nodup_cons.mpr ⟨?_, ih (x :: seen)⟩
        intro hmem
        exact (mem_uniqueFirstAux.mp hmem).2 (List.mem_cons_self x seen)

theorem mem_uniqueFirst {α : Type} [DecidableEq α] {a : α} {l : List α} :
    a ∈ uniqueFirst l ↔ a ∈ l := by
  simp [uniqueFirst, mem_uniqueFirstAux]

theorem nodup_uniqueFirst {α : Type} [DecidableEq α] (l : List α) :
    (uniqueFirst l).Nodup :=
  nodup_uniqueFirstAux l []

theorem uniqueFirstAux_eq_self {α : Type} [DecidableEq α] :
    ∀ {l seen : List α}, l.Nodup → (∀ a ∈ l, a ∉ seen) →
      uniqueFirstAux seen l = l := by
  intro l
  induction l with
  | nil => intro seen _ _; rfl
  | cons x xs ih =>
      intro seen hnd hdisj
      have hx : x ∉ seen := hdisj x (List.mem_cons_self x xs)
      rw [uniqueFirstAux, if_neg hx]
      refine congrArg (x :: ·) (ih (List.Nodup.of_cons hnd) ?_)
      intro a ha hs
      rcases List.mem_cons.mp hs with h | h
      · exact (List.nodup_cons.mp hnd).1 (h ▸ ha)
      · exact hdisj a (List.mem_cons_of_mem _ ha) h

theorem uniqueFirst_eq_self {α : Type} [DecidableEq α] {l : List α}
    (hnd : l.Nodup) : uniqueFirst l = l :=
  uniqueFirstAux_eq_self hnd (by simp)

/-! ### Helper lemmas about counting -/

theorem countP_or_disjoint {α : Type} (p q : α → Bool) :
    ∀ l : List α, (∀ a ∈ l, ¬(p a = true ∧ q a = true)) →
      l.countP (fun a => p a || q a) = l.countP p + l.countP q := by
  intro l
  induction l with
  | nil => intro _; simp
  | cons x xs ih =>
      intro h
      have hx := h x (List.mem_cons_self x xs)
      have hxs := ih fun a ha => h a (List.mem_cons_of_mem _ ha)
      rcases hp : p x with _ | _ <;> rcases hq : q x with _ | _
      · simp [List.countP_cons, hp, hq, hxs]
      · simp only [List.countP_cons, hp, hq, Bool.or_true]
        simp [hxs]; omega
      · simp only [List.countP_cons, hp, hq, Bool.true_or]
        simp [hxs]; omega
      · exact absurd ⟨hp, hq⟩ hx

theorem sum_countP_keys {α κ : Type} [DecidableEq κ] (key : α → κ)
    (l : List α) :
    ∀ K : List κ, K.Nodup →
      (K.map (fun k => l.countP (fun a => decide (key a = k)))).sum
        = l.countP (fun a => decide (key a ∈ K)) := by
  intro K
  induction K with
  | nil => intro _; simp [List.countP_eq_length_filter]
  | cons k K ih =>
      intro hnd
      have hk : k ∉ K := (List.nodup_cons.mp hnd).1
      have hsum := ih (List.nodup_cons.mp hnd).2
      have hdisj : ∀ a ∈ l,
          ¬(decide (key a = k) = true ∧ decide (key a ∈ K) = true) := by
        intro a _ ⟨h₁, h₂⟩
        exact hk ((of_decide_eq_true h₁) ▸ of_decide_eq_true h₂)
      have hor := countP_or_disjoint (fun a => decide (key a = k))
        (fun a => decide (key a ∈ K)) l hdisj
      have hcongr : l.countP (fun a => decide (key a ∈ k :: K))
          = l.countP (fun a => decide (key a = k) || decide (key a ∈ K)) := by
        refine List.countP_congr fun a _ => ?_
        simp [List.mem_cons]
      simp only [List.map_cons, List.sum_cons, hsum, hcongr, hor]

theorem filter_map_comm {α β : Type} (f : α → β) (p : β → Bool) :
    ∀ l : List α, (l.map f).filter p = (l.filter fun x => p (f x)).map f := by
  intro l
  induction l with
  | nil => rfl
  | cons x xs ih =>
      by_cases h : p (f x) <;>
        simp [List.filter_cons, List.map_cons, h, ih]

/-! ### Structure of the aggregate list -/

theorem aggRowOfKey_ckey (df : List Incident) (k : CrimeKey) :
    (aggRowOfKey df k).ckey = k := rfl

theorem aggRowOfKey_coordOf (df : List Incident) (k : CrimeKey) :
    (aggRowOfKey df k).coordOf = (k.1, k.2.1) := rfl

theorem mem_sortedCrimeKeys {df : List Incident} {k : CrimeKey} :
    k ∈ sortedCrimeKeys df ↔ ∃ r ∈ df, r.ckey = k := by
  unfold sortedCrimeKeys
  rw [(List.perm_insertionSort keyLE _).mem_iff, mem_uniqueFirst,
    List.mem_map]

theorem nodup_sortedCrimeKeys (df : List Incident) :
    (sortedCrimeKeys df).Nodup := by
  unfold sortedCrimeKeys
  exact (List.perm_insertionSort keyLE _).nodup_iff.mpr
    (nodup_uniqueFirst _)

theorem mem_aggregate {df : List Incident} {a : AggRow} :
    a ∈ aggregate_by_location_and_crime df ↔
      ∃ k ∈ sortedCrimeKeys df, a = aggRowOfKey df k := by
  unfold aggregate_by_location_and_crime
  rw [List.mem_map]
  constructor
  · rintro ⟨k, hk, rfl⟩; exact ⟨k, hk, rfl⟩
  · rintro ⟨k, hk, rfl⟩; exact ⟨k, hk, rfl⟩

theorem map_ckey_aggregate (df : List Incident) :
    (aggregate_by_location_and_crime df).map AggRow.ckey
      = sortedCrimeKeys df := by
  unfold aggregate_by_location_and_crime
  rw [List.map_map]
  have : (AggRow.ckey ∘ aggRowOfKey df) = fun k => k := by
    funext k; exact aggRowOfKey_ckey df k
  rw [this, List.map_id']

theorem nodup_aggregate_keys (df : List Incident) :
    ((aggregate_by_location_and_crime df).map AggRow.ckey).Nodup := by
  rw [map_ckey_aggregate]
  exact nodup_sortedCrimeKeys df

/-! ### Counting per key versus per coordinate -/

theorem coordKey_of_ckey {r : Incident} {k : CrimeKey} (h : r.ckey = k) :
    r.coordKey = (k.1, k.2.1) := by
  obtain ⟨a, b, c⟩ := k
  obtain ⟨h₁, h₂⟩ := Prod.mk.injEq .. ▸ h
  obtain ⟨h₂, h₃⟩ := Prod.mk.injEq .. ▸ h₂
  simp [Incident.coordKey, Incident.ckey] at h₁ h₂ ⊢
  exact ⟨h₁, h₂⟩

theorem freq_le_total (df : List Incident) (k : CrimeKey) :
    crimeFrequency df k ≤ locationTotal df (k.1, k.2.1) := by
  refine List.countP_mono_left fun r _ h => ?_
  exact decide_eq_true (coordKey_of_ckey (of_decide_eq_true h))

theorem sum_freq_at_coord (df : List Incident) (p : ℚ × ℚ) :
    (((sortedCrimeKeys df).filter fun k => decide ((k.1, k.2.1) = p)).map
        fun k => crimeFrequency df k).sum = locationTotal df p := by
  have hnd : ((sortedCrimeKeys df).filter
      fun k => decide ((k.1, k.2.1) = p)).Nodup :=
    (nodup_sortedCrimeKeys df).filter _
  rw [show (((sortedCrimeKeys df).filter
        fun k => decide ((k.1, k.2.1) = p)).map
        fun k => crimeFrequency df k)
      = (((sortedCrimeKeys df).filter
        fun k => decide ((k.1, k.2.1) = p)).map
        fun k => df.countP fun r => decide (r.ckey = k)) from rfl,
    sum_countP_keys _ _ _ hnd]
  refine List.countP_congr fun r hr => ?_
  simp only [decide_eq_true_eq]
  constructor
  · intro hmem
    have hp := of_decide_eq_true (List.mem_filter.mp hmem).2
    exact (coordKey_of_ckey rfl).trans hp
  · intro hco
    refine List.mem_filter.mpr
      ⟨mem_sortedCrimeKeys.mpr ⟨r, hr, rfl⟩, decide_eq_true ?_⟩
    exact (coordKey_of_ckey (r := r) rfl) ▸ hco

/-! ### Marker radius -/

theorem totals_bounds {agg : List AggRow} {minT maxT : ℕ}
    (hmin : (totalsOf agg).min? = some minT)
    (hmax : (totalsOf agg).max? = some maxT) :
    ∀ a ∈ agg, minT ≤ a.total_incidents ∧ a.total_incidents ≤ maxT := by
  intro a ha
  have h₁ := (List.min?_eq_some_iff'.mp hmin).2
  have h₂ := (List.max?_eq_some_iff'.mp hmax).2
  have hmem : a.total_incidents ∈ totalsOf agg :=
    List.mem_map_of_mem AggRow.total_incidents ha
  exact ⟨h₁ _ hmem, h₂ _ hmem⟩

theorem marker_radius_of_lt {minT maxT : ℕ} (h : minT < maxT) (t : ℕ) :
    marker_radius minT maxT t
      = some (5 + ((t : ℚ) - (minT : ℚ)) / ((maxT : ℚ) - (minT : ℚ)) * 20) := by
  unfold marker_radius
  rw [if_neg]
  intro hc
  have hlt : (minT : ℚ) < (maxT : ℚ) := by exact_mod_cast h
  linarith

theorem marker_radius_bounds {minT maxT t : ℕ} (h : minT < maxT)
    (h₁ : minT ≤ t) (h₂ : t ≤ maxT) :
    ∀ r : ℚ, marker_radius minT maxT t = some r → 5 ≤ r ∧ r ≤ 25 := by
  intro r hr
  rw [marker_radius_of_lt h] at hr
  have hrq := (Option.some.injEq _ _ ▸ hr).symm
  have hd : (0 : ℚ) < (maxT : ℚ) - (minT : ℚ) := by
    have : (minT : ℚ) < (maxT : ℚ) := by exact_mod_cast h
    linarith
  have hn : (0 : ℚ) ≤ (t : ℚ) - (minT : ℚ) := by
    have : (minT : ℚ) ≤ (t : ℚ) := by exact_mod_cast h₁
    linarith
  have hq0 : 0 ≤ ((t : ℚ) - (minT : ℚ)) / ((maxT : ℚ) - (minT : ℚ)) :=
    div_nonneg hn (le_of_lt hd)
  have hq1 : ((t : ℚ) - (minT : ℚ)) / ((maxT : ℚ) - (minT : ℚ)) ≤ 1 := by
    rw [div_le_one hd]
    have : (t : ℚ) ≤ (maxT : ℚ) := by exact_mod_cast h₂
    linarith
  constructor <;> rw [hrq] <;> nlinarith

theorem marker_radius_mono {minT maxT t₁ t₂ : ℕ} (h : minT < maxT)
    (ht : t₁ ≤ t₂) :
    ∀ r₁ r₂ : ℚ, marker_radius minT maxT t₁ = some r₁ →
      marker_radius minT maxT t₂ = some r₂ → r₁ ≤ r₂ := by
  intro r₁ r₂ h₁ h₂
  rw [marker_radius_of_lt h] at h₁ h₂
  have hd : (0 : ℚ) < (maxT : ℚ) - (minT : ℚ) := by
    have : (minT : ℚ) < (maxT : ℚ) := by exact_mod_cast h
    linarith
  have hts : (t₁ : ℚ) ≤ (t₂ : ℚ) := by exact_mod_cast ht
  have hdiv : ((t₁ : ℚ) - (minT : ℚ)) / ((maxT : ℚ) - (minT : ℚ))
      ≤ ((t₂ : ℚ) - (minT : ℚ)) / ((maxT : ℚ) - (minT : ℚ)) := by
    rw [div_le_div_iff_of_pos_right hd]
    linarith
  have e₁ := (Option.some.injEq _ _ ▸ h₁).symm
  have e₂ := (Option.some.injEq _ _ ▸ h₂).symm
  rw [e₁, e₂]
  linarith

/-! ### Color assignment -/

theorem get_color_palette_length : get_color_palette.length = 20 := rfl

theorem nodup_crime_types (agg : List AggRow) : (crime_types agg).Nodup :=
  nodup_uniqueFirst _

theorem mem_crime_types {agg : List AggRow} {c : String} :
    c ∈ crime_types agg ↔ ∃ a ∈ agg, a.crime = c := by
  unfold crime_types
  rw [mem_uniqueFirst, List.mem_map]

theorem findIdx_go_of_nodup :
    ∀ {l : List String} {i : ℕ} {c : String} (s : ℕ), l.Nodup →
      l[i]? = some c → l.findIdx? (fun x => x == c) s = some (s + i) := by
  intro l
  induction l with
  | nil => intro i c s _ hget; simp at hget
  | cons x xs ih =>
      intro i c s hnd hget
      cases i with
      | zero =>
          have hx : x = c := by simpa using hget
          simp [List.findIdx?, hx]
      | succ i =>
          have hget' : xs[i]? = some c := by simpa using hget
          have hcm : c ∈ xs := List.getElem?_mem hget'
          have hx : ¬(x == c) = true := by
            intro hb
            exact (List.nodup_cons.mp hnd).1 ((eq_of_beq hb) ▸ hcm)
          rw [List.findIdx?]
          simp only [hx, Bool.false_eq_true, if_false]
          rw [ih (s + 1) (List.nodup_cons.mp hnd).2 hget']
          congr 1
          omega

theorem findIdx_of_nodup {l : List String} {i : ℕ} {c : String}
    (hnd : l.Nodup) (hget : l[i]? = some c) :
    l.findIdx? (fun x => x == c) = some i := by
  have := findIdx_go_of_nodup 0 hnd hget
  simpa using this

theorem color_map_rank {agg : List AggRow} {i : ℕ} {c : String}
    (h : (crime_types agg)[i]? = some c) :
    color_map agg c = get_color_palette[i % 20]? := by
  unfold color_map
  rw [findIdx_of_nodup (nodup_crime_types agg) h]
  rfl

theorem findIdx?_isSome_of_mem :
    ∀ {l : List String} {c : String} (s : ℕ), c ∈ l →
      (l.findIdx? (fun x => x == c) s).isSome := by
  intro l
  induction l with
  | nil => intro c s h; simp at h
  | cons x xs ih =>
      intro c s h
      by_cases hx : (x == c) = true
      · simp [List.findIdx?, hx]
      · rw [List.findIdx?]
        simp only [hx, Bool.false_eq_true, if_false]
        rcases List.mem_cons.mp h with rfl | h
        · exact absurd (beq_self_eq_true c) hx
        · exact ih (s + 1) h

theorem color_map_isSome {agg : List AggRow} {c : String}
    (h : c ∈ crime_types agg) : (color_map agg c).isSome := by
  unfold color_map
  obtain ⟨i, hi⟩ := Option.isSome_iff_exists.mp (findIdx?_isSome_of_mem 0 h)
  rw [hi]
  show (get_color_palette[i % get_color_palette.length]?).isSome = true
  have hlt : i % get_color_palette.length < get_color_palette.length :=
    Nat.mod_lt _ (by decide)
  rw [List.getElem?_eq_getElem hlt]
  rfl

/-! ### Legend -/

theorem mem_legendCrimeTypes {agg : List AggRow} {c : String} :
    c ∈ legendCrimeTypes agg ↔ c ∈ crime_types agg :=
  (List.perm_insertionSort _ _).mem_iff

theorem nodup_legendCrimeTypes (agg : List AggRow) :
    (legendCrimeTypes agg).Nodup :=
  (List.perm_insertionSort _ _).nodup_iff.mpr (nodup_crime_types agg)

theorem sorted_legendCrimeTypes (agg : List AggRow) :
    List.Sorted (fun a b : String => a ≤ b) (legendCrimeTypes agg) :=
  List.sorted_insertionSort _ _

theorem legend_count_distinct_coords (df : List Incident) (c : String) :
    legendLocationCount (aggregate_by_location_and_crime df) c
      = (uniqueFirst (((aggregate_by_location_and_crime df).filter
          fun a => decide (a.crime = c)).map AggRow.coordOf)).length := by
  have hsub : (((aggregate_by_location_and_crime df).filter
        fun a => decide (a.crime = c)).map AggRow.ckey).Sublist
      ((aggregate_by_location_and_crime df).map AggRow.ckey) :=
    (List.filter_sublist _).map _
  have hknd := hsub.nodup (nodup_aggregate_keys df)
  have hmapeq : ((aggregate_by_location_and_crime df).filter
        fun a => decide (a.crime = c)).map AggRow.ckey
      = (((aggregate_by_location_and_crime df).filter
          fun a => decide (a.crime = c)).map AggRow.coordOf).map
        (fun p => (p.1, p.2, c)) := by
    rw [List.map_map]
    refine List.map_congr_left fun a ha => ?_
    have hc : a.crime = c := of_decide_eq_true (List.mem_filter.mp ha).2
    simp [AggRow.ckey, AggRow.coordOf, Function.comp, hc]
  have hcnd : (((aggregate_by_location_and_crime df).filter
        fun a => decide (a.crime = c)).map AggRow.coordOf).Nodup :=
    List.Nodup.of_map _ (hmapeq ▸ hknd)
  rw [uniqueFirst_eq_self hcnd, List.length_map]
  rfl

/-! ### Loader -/

theorem load_mem_source {rows : List RawRow} {inc : Incident}
    (h : inc ∈ load_and_process_data rows) :
    ∃ r ∈ rows, toNumeric r.reportingAreaLat = some inc.lat ∧
      toNumeric r.reportingAreaLon = some inc.lon ∧ r.crime = inc.crime ∧
      r.neighborhood = inc.neighborhood ∧ r.location = inc.location ∧
      r.reportingArea = inc.reportingArea := by
  unfold load_and_process_data at h
  simp only [List.mem_filterMap] at h
  obtain ⟨r, hr, heq⟩ := h
  refine ⟨r, (List.mem_filter.mp hr).1, ?_⟩
  rcases hla : toNumeric r.reportingAreaLat with _ | la <;>
    rcases hlo : toNumeric r.reportingAreaLon with _ | lo <;>
      rw [hla, hlo] at heq <;> simp only [] at heq
  · exact absurd heq (by simp)
  · exact absurd heq (by simp)
  · exact absurd heq (by simp)
  · injection heq with h
    subst h
    exact ⟨rfl, rfl, rfl, rfl, rfl, rfl⟩

/-! ### Descriptive fields -/

theorem firstAgg_of_first_some {df : List Incident} {p : ℚ × ℚ}
    {f : Incident → Option String} {r0 : Incident}
    (h : specFirstIncidentAt df p = some r0) (hf : (f r0).isSome) :
    firstAgg df p f = f r0 := by
  unfold specFirstIncidentAt at h
  obtain ⟨ys, hys⟩ := List.head?_eq_some_iff.mp h
  unfold firstAgg
  rw [hys]
  obtain ⟨v, hv⟩ := Option.isSome_iff_exists.mp hf
  simp [List.filterMap_cons, hv]

theorem crimeFrequency_pos {df : List Incident} {k : CrimeKey}
    (h : ∃ r ∈ df, r.ckey = k) : 1 ≤ crimeFrequency df k := by
  obtain ⟨r, hr, hk⟩ := h
  exact List.countP_pos_iff.mpr ⟨r, hr, decide_eq_true hk⟩

/-! ## Claims -/

/-- C1: every row produced by the aggregator has `frequency` at most
`total_incidents`, and for each coordinate the frequencies of the
aggregate rows at that coordinate sum to that coordinate's
`total_incidents`. -/
theorem C1_aggregator_invariants (df : List Incident) :
    (∀ a ∈ aggregate_by_location_and_crime df,
        a.frequency ≤ a.total_incidents) ∧
    (∀ a ∈ aggregate_by_location_and_crime df,
      (((aggregate_by_location_and_crime df).filter
          fun b => decide (b.coordOf = a.coordOf)).map AggRow.frequency).sum
        = a.total_incidents) := by
  constructor
  · intro a ha
    obtain ⟨k, _, rfl⟩ := mem_aggregate.mp ha
    exact freq_le_total df k
  · intro a ha
    obtain ⟨k₀, _, rfl⟩ := mem_aggregate.mp ha
    show ((((sortedCrimeKeys df).map (aggRowOfKey df)).filter
        fun b => decide (b.coordOf = (aggRowOfKey df k₀).coordOf)).map
          AggRow.frequency).sum = (aggRowOfKey df k₀).total_incidents
    rw [filter_map_comm, List.map_map]
    exact sum_freq_at_coord df (k₀.1, k₀.2.1)

/-- Witness for C1, at the concrete collection `demoDf` and its
aggregate row for the key `(1, 2, "Theft")`. -/
theorem C1_aggregator_invariants_witness :
    (aggRowOfKey demoDf ((1 : ℚ), (2 : ℚ), "Theft")).frequency
        ≤ (aggRowOfKey demoDf ((1 : ℚ), (2 : ℚ), "Theft")).total_incidents ∧
    (((aggregate_by_location_and_crime demoDf).filter
        fun b => decide (b.coordOf
          = (aggRowOfKey demoDf ((1 : ℚ), (2 : ℚ), "Theft")).coordOf)).map
        AggRow.frequency).sum
      = (aggRowOfKey demoDf ((1 : ℚ), (2 : ℚ), "Theft")).total_incidents := by
  have h := C1_aggregator_invariants demoDf
  have hmem : aggRowOfKey demoDf ((1 : ℚ), (2 : ℚ), "Theft")
      ∈ aggregate_by_location_and_crime demoDf := by decide
  exact ⟨h.1 _ hmem, h.2 _ hmem⟩

/-- C2 (code bug): on an aggregate collection where every row carries the
same `total_incidents` — here the whole pipeline run on one incident —
the source evaluates `(t - min) / (max - min) = 0 / 0`, so the marker
radius is the undefined NaN value (`none`), not a defined constant. -/
theorem C2_degenerate_radius_undefined :
    (markersOf (aggregate_by_location_and_crime [loneIncident])).map
        Marker.radius = [none] ∧
    marker_radius 1 1 1 = none := by
  constructor
  · have hagg : aggregate_by_location_and_crime [loneIncident]
        = [⟨42.37, -71.10, "Theft", 1, 1, none, none, none⟩] := by
      norm_num [aggregate_by_location_and_crime, sortedCrimeKeys,
        uniqueFirst, uniqueFirstAux, List.insertionSort,
        List.orderedInsert, aggRowOfKey, crimeFrequency, locationTotal,
        firstAgg, Incident.ckey, Incident.coordKey, loneIncident,
        List.countP_cons, AggRow.mk.injEq]
    rw [hagg]
    norm_num [markersOf, totalsOf, marker_radius]
  · norm_num [marker_radius]

/-- C3: with distinct global extremes `min_total < max_total`, every
marker's radius is exactly the linear interpolation
`5 + (total_incidents - min_total) / (max_total - min_total) * 20`, that
radius always lies in `[5, 25]`, and it is monotone non-decreasing in
`total_incidents`. -/
theorem C3_radius_interpolation (agg : List AggRow) (minT maxT : ℕ)
    (hmin : (totalsOf agg).min? = some minT)
    (hmax : (totalsOf agg).max? = some maxT)
    (hlt : minT < maxT) :
    (markersOf agg = agg.map fun a =>
      { lat := a.lat
        lon := a.lon
        radius := some (5 + ((a.total_incidents : ℚ) - (minT : ℚ))
            / ((maxT : ℚ) - (minT : ℚ)) * 20)
        color := color_map agg a.crime }) ∧
    (∀ a ∈ agg, ∀ r : ℚ,
      marker_radius minT maxT a.total_incidents = some r →
        5 ≤ r ∧ r ≤ 25) ∧
    (∀ a₁ ∈ agg, ∀ a₂ ∈ agg, a₁.total_incidents ≤ a₂.total_incidents →
      ∀ r₁ r₂ : ℚ, marker_radius minT maxT a₁.total_incidents = some r₁ →
        marker_radius minT maxT a₂.total_incidents = some r₂ →
          r₁ ≤ r₂) := by
  refine ⟨?_, ?_, ?_⟩
  · unfold markersOf
    rw [hmin, hmax, Option.getD_some, Option.getD_some]
    refine List.map_congr_left fun a _ => ?_
    rw [marker_radius_of_lt hlt]
  · intro a ha r hr
    obtain ⟨h₁, h₂⟩ := totals_bounds hmin hmax a ha
    exact marker_radius_bounds hlt h₁ h₂ r hr
  · intro a₁ _ a₂ _ ht r₁ r₂ h₁ h₂
    exact marker_radius_mono hlt ht r₁ r₂ h₁ h₂

/-- Witness for C3, at the aggregate of `demoDf`, whose totals are
`[2, 1]` with `min_total = 1 < 2 = max_total`. -/
theorem C3_radius_interpolation_witness :
    markersOf (aggregate_by_location_and_crime demoDf)
      = (aggregate_by_location_and_crime demoDf).map fun a =>
          { lat := a.lat
            lon := a.lon
            radius := some (5 + ((a.total_incidents : ℚ) - ((1 : ℕ) : ℚ))
                / (((2 : ℕ) : ℚ) - ((1 : ℕ) : ℚ)) * 20)
            color := color_map (aggregate_by_location_and_crime demoDf)
              a.crime } :=
  (C3_radius_interpolation (aggregate_by_location_and_crime demoDf) 1 2
    (by decide) (by decide) (by decide)).1

/-- C4: the palette has 20 colors; the category of rank `i` in
first-appearance order over the aggregates gets the palette color of
index `i % 20`; the mapping is a function of the cleaned data alone; and
two distinct categories among the first 20 get distinct colors. -/
theorem C4_color_assignment :
    get_color_palette.length = 20 ∧
    (∀ (agg : List AggRow) (i : ℕ) (c : String),
      (crime_types agg)[i]? = some c →
      color_map agg c = get_color_palette[i % 20]?) ∧
    (∀ rows₁ rows₂ : List RawRow,
      load_and_process_data rows₁ = load_and_process_data rows₂ →
      color_map (aggregate_by_location_and_crime
          (load_and_process_data rows₁))
        = color_map (aggregate_by_location_and_crime
          (load_and_process_data rows₂))) ∧
    (∀ (agg : List AggRow) (i j : ℕ) (ci cj : String),
      i < 20 → j < 20 → i ≠ j →
      (crime_types agg)[i]? = some ci →
      (crime_types agg)[j]? = some cj →
      color_map agg ci ≠ color_map agg cj) := by
  refine ⟨rfl, ?_, ?_, ?_⟩
  · intro agg i c h
    exact color_map_rank h
  · intro rows₁ rows₂ h
    rw [h]
  · intro agg i j ci cj hi hj hij hci hcj
    rw [color_map_rank hci, color_map_rank hcj,
      Nat.mod_eq_of_lt hi, Nat.mod_eq_of_lt hj]
    have hpal : ∀ m < 20, ∀ n < 20, m ≠ n →
        get_color_palette[m]? ≠ get_color_palette[n]? := by decide
    exact hpal i hi j hj hij

/-- Witness for C4, at the aggregate of `demoDf`: rank 0 is `"Theft"`
(first palette color), rank 1 is `"Burglary"` (second palette color), and
the two colors differ. -/
theorem C4_color_assignment_witness :
    color_map (aggregate_by_location_and_crime demoDf) "Theft"
        = some "#FF6B6B" ∧
    color_map (aggregate_by_location_and_crime demoDf) "Burglary"
        = some "#4ECDC4" ∧
    color_map (aggregate_by_location_and_crime demoDf) "Theft"
        ≠ color_map (aggregate_by_location_and_crime demoDf) "Burglary" := by
  have h0 := C4_color_assignment.2.1
    (aggregate_by_location_and_crime demoDf) 0 "Theft" (by decide)
  have h1 := C4_color_assignment.2.1
    (aggregate_by_location_and_crime demoDf) 1 "Burglary" (by decide)
  have hne := C4_color_assignment.2.2.2
    (aggregate_by_location_and_crime demoDf) 0 1 "Theft" "Burglary"
    (by decide) (by decide) (by decide) (by decide) (by decide)
  exact ⟨by rw [h0]; rfl, by rw [h1]; rfl, hne⟩

/-- C5: a row whose latitude or longitude is absent or fails numeric
parsing is dropped by the loader without error and never reaches any
aggregate row; on the spec's example input only the valid row survives. -/
theorem C5_invalid_rows_dropped :
    (∀ rows : List RawRow, ∀ inc ∈ load_and_process_data rows,
      ∃ r ∈ rows, toNumeric r.reportingAreaLat = some inc.lat ∧
        toNumeric r.reportingAreaLon = some inc.lon ∧
        r.crime = inc.crime) ∧
    (∀ rows : List RawRow,
      ∀ a ∈ aggregate_by_location_and_crime (load_and_process_data rows),
      ∃ r ∈ rows, toNumeric r.reportingAreaLat = some a.lat ∧
        toNumeric r.reportingAreaLon = some a.lon) ∧
    load_and_process_data [exampleRowValid, exampleRowMissingLat]
      = [exampleIncidentValid] := by
  refine ⟨?_, ?_, rfl⟩
  · intro rows inc hinc
    obtain ⟨r, hr, h₁, h₂, h₃, _⟩ := load_mem_source hinc
    exact ⟨r, hr, h₁, h₂, h₃⟩
  · intro rows a ha
    obtain ⟨k, hk, rfl⟩ := mem_aggregate.mp ha
    obtain ⟨inc, hinc, hkey⟩ := mem_sortedCrimeKeys.mp hk
    obtain ⟨r, hr, h₁, h₂, _⟩ := load_mem_source hinc
    have hco := coordKey_of_ckey hkey
    have hlat : inc.lat = k.1 := congrArg Prod.fst hco
    have hlon : inc.lon = k.2.1 := congrArg Prod.snd hco
    refine ⟨r, hr, ?_, ?_⟩
    · show toNumeric r.reportingAreaLat = some k.1
      rw [← hlat]; exact h₁
    · show toNumeric r.reportingAreaLon = some k.2.1
      rw [← hlon]; exact h₂

/-- Witness for C5, applying the first part at the example rows and the
surviving incident. -/
theorem C5_invalid_rows_dropped_witness :
    ∃ r ∈ [exampleRowValid, exampleRowMissingLat],
      toNumeric r.reportingAreaLat = some exampleIncidentValid.lat ∧
      toNumeric r.reportingAreaLon = some exampleIncidentValid.lon ∧
      r.crime = exampleIncidentValid.crime := by
  refine C5_invalid_rows_dropped.1 [exampleRowValid, exampleRowMissingLat]
    exampleIncidentValid ?_
  have he : load_and_process_data [exampleRowValid, exampleRowMissingLat]
      = [exampleIncidentValid] := rfl
  rw [he]
  exact List.mem_singleton_self _

/-- C6 counterexample: the claim as stated — descriptive fields come from
the FIRST record at the coordinate — fails at `exC6df`, whose first
record has null descriptive fields: pandas `'first'` skips nulls and the
aggregate carries the second record's values instead. -/
theorem C6_counterexample :
    ¬ (∀ df : List Incident, ∀ a ∈ aggregate_by_location_and_crime df,
        a.neighborhood
            = (specFirstIncidentAt df (a.lat, a.lon)).bind
              Incident.neighborhood ∧
        a.location
            = (specFirstIncidentAt df (a.lat, a.lon)).bind
              Incident.location ∧
        a.reportingArea
            = (specFirstIncidentAt df (a.lat, a.lon)).bind
              Incident.reportingArea) := by
  intro h
  have hmem : aggRowOfKey exC6df ((1 : ℚ), (2 : ℚ), "Theft")
      ∈ aggregate_by_location_and_crime exC6df := by decide
  have hfields := (h exC6df _ hmem).1
  exact absurd hfields (by decide)

/-- C6 (amended): each descriptive field of an aggregate row is the first
NON-null value of that field among the incidents at its coordinate, in
the cleaned collection's order (fields chosen independently); in
particular, whenever the first record's field is non-null, that first
record's value is used. -/
theorem C6_first_non_null_fields (df : List Incident) :
    ∀ a ∈ aggregate_by_location_and_crime df,
      (a.neighborhood = (((df.filter fun r =>
            decide (r.coordKey = (a.lat, a.lon))).filterMap
            Incident.neighborhood).head?) ∧
       a.location = (((df.filter fun r =>
            decide (r.coordKey = (a.lat, a.lon))).filterMap
            Incident.location).head?) ∧
       a.reportingArea = (((df.filter fun r =>
            decide (r.coordKey = (a.lat, a.lon))).filterMap
            Incident.reportingArea).head?)) ∧
      (∀ r0 : Incident, specFirstIncidentAt df (a.lat, a.lon) = some r0 →
        (r0.neighborhood.isSome → a.neighborhood = r0.neighborhood) ∧
        (r0.location.isSome → a.location = r0.location) ∧
        (r0.reportingArea.isSome → a.reportingArea = r0.reportingArea)) := by
  intro a ha
  obtain ⟨k, _, rfl⟩ := mem_aggregate.mp ha
  refine ⟨⟨rfl, rfl, rfl⟩, ?_⟩
  intro r0 hr0
  exact ⟨fun hf => firstAgg_of_first_some hr0 hf,
    fun hf => firstAgg_of_first_some hr0 hf,
    fun hf => firstAgg_of_first_some hr0 hf⟩

/-- Witness for C6 (amended), at `exC6bDf`: the first record's
neighborhood is non-null and is the one the aggregate carries. -/
theorem C6_first_non_null_fields_witness :
    (aggRowOfKey exC6bDf ((1 : ℚ), (2 : ℚ), "Theft")).neighborhood
      = some "Riverside" := by
  have h := (C6_first_non_null_fields exC6bDf
      (aggRowOfKey exC6bDf ((1 : ℚ), (2 : ℚ), "Theft")) (by decide)).2
    ⟨1, 2, "Theft", some "Riverside", none, none⟩ (by decide)
  exact h.1 (by decide)

/-- C7: the legend enumerates exactly the distinct categories of the
aggregate collection, without repetition, in alphabetically sorted
order, and the count next to a category is the number of distinct
`(lat, lon)` pairs at which that category occurs. -/
theorem C7_legend_contents (df : List Incident) :
    ((legendCrimeTypes (aggregate_by_location_and_crime df)).Nodup ∧
     List.Sorted (fun a b : String => a ≤ b)
       (legendCrimeTypes (aggregate_by_location_and_crime df)) ∧
     ∀ c : String,
       c ∈ legendCrimeTypes (aggregate_by_location_and_crime df) ↔
         ∃ a ∈ aggregate_by_location_and_crime df, a.crime = c) ∧
    (∀ c ∈ legendCrimeTypes (aggregate_by_location_and_crime df),
      legendLocationCount (aggregate_by_location_and_crime df) c
        = (uniqueFirst (((aggregate_by_location_and_crime df).filter
            fun a => decide (a.crime = c)).map AggRow.coordOf)).length) ∧
    legendEntries (aggregate_by_location_and_crime df)
      = (legendCrimeTypes (aggregate_by_location_and_crime df)).map
          fun c => legendEntryText c
            (legendLocationCount (aggregate_by_location_and_crime df) c) := by
  refine ⟨⟨nodup_legendCrimeTypes _, sorted_legendCrimeTypes _, ?_⟩,
    ?_, rfl⟩
  · intro c
    rw [mem_legendCrimeTypes, mem_crime_types]
  · intro c _
    exact legend_count_distinct_coords df c

/-- Witness for C7, at the aggregate of `demoDf` and the category
`"Theft"`. -/
theorem C7_legend_contents_witness :
    legendLocationCount (aggregate_by_location_and_crime demoDf) "Theft"
      = (uniqueFirst (((aggregate_by_location_and_crime demoDf).filter
          fun a => decide (a.crime = "Theft")).map AggRow.coordOf)).length := by
  refine (C7_legend_contents demoDf).2.1 "Theft" ?_
  exact mem_legendCrimeTypes.mpr (mem_crime_types.mpr
    ⟨aggRowOfKey demoDf ((1 : ℚ), (2 : ℚ), "Theft"), by decide, rfl⟩)

/-- C8 counterexample: on the spec's three-incident scenario the legend
entries read `"... (1 locations)"` — the source always pluralizes — so
the legend does not list `"Assault (1 location)"` and
`"Theft (1 location)"` as the claim states. -/
theorem C8_counterexample :
    legendEntries (aggregate_by_location_and_crime scenarioIncidents)
        = ["Assault (1 locations)", "Theft (1 locations)"] ∧
    legendEntries (aggregate_by_location_and_crime scenarioIncidents)
        ≠ ["Assault (1 location)", "Theft (1 location)"] := by
  have hagg : aggregate_by_location_and_crime scenarioIncidents =
      [⟨42.37, -71.10, "Theft", 2, 2, none, none, none⟩,
       ⟨42.38, -71.11, "Assault", 1, 1, none, none, none⟩] := by
    norm_num [aggregate_by_location_and_crime, sortedCrimeKeys,
      uniqueFirst, uniqueFirstAux, List.insertionSort, List.orderedInsert,
      keyLE, aggRowOfKey, crimeFrequency, locationTotal, firstAgg,
      Incident.ckey, Incident.coordKey, scenarioIncidents,
      List.countP_cons, AggRow.mk.injEq]
  have hTA : ¬(("Theft" : String) ≤ "Assault") := by
    rw [String.le_iff_toList_le]; decide
  have hleg : legendEntries (aggregate_by_location_and_crime
      scenarioIncidents) = ["Assault (1 locations)", "Theft (1 locations)"] := by
    rw [hagg]
    simp [legendEntries, legendCrimeTypes, crime_types, uniqueFirst,
      uniqueFirstAux, List.insertionSort, List.orderedInsert,
      legendLocationCount, legendEntryText, hTA, List.filter_cons]
    exact ⟨rfl, rfl⟩
  refine ⟨hleg, ?_⟩
  rw [hleg]
  decide

/-- C8 (amended): on the spec's scenario, aggregation yields exactly the
two rows `(42.37, -71.10, "Theft", frequency 2, total 2)` and
`(42.38, -71.11, "Assault", frequency 1, total 1)`, the map has exactly 2
markers (one per aggregate row), and the legend lists
`"Assault (1 locations)"` and `"Theft (1 locations)"` (the source
pluralizes unconditionally). -/
theorem C8_end_to_end :
    aggregate_by_location_and_crime scenarioIncidents =
      [⟨42.37, -71.10, "Theft", 2, 2, none, none, none⟩,
       ⟨42.38, -71.11, "Assault", 1, 1, none, none, none⟩] ∧
    (markersOf (aggregate_by_location_and_crime scenarioIncidents)).length
      = (aggregate_by_location_and_crime scenarioIncidents).length ∧
    (markersOf (aggregate_by_location_and_crime scenarioIncidents)).length
      = 2 ∧
    legendEntries (aggregate_by_location_and_crime scenarioIncidents)
      = ["Assault (1 locations)", "Theft (1 locations)"] := by
  have hagg : aggregate_by_location_and_crime scenarioIncidents =
      [⟨42.37, -71.10, "Theft", 2, 2, none, none, none⟩,
       ⟨42.38, -71.11, "Assault", 1, 1, none, none, none⟩] := by
    norm_num [aggregate_by_location_and_crime, sortedCrimeKeys,
      uniqueFirst, uniqueFirstAux, List.insertionSort, List.orderedInsert,
      keyLE, aggRowOfKey, crimeFrequency, locationTotal, firstAgg,
      Incident.ckey, Incident.coordKey, scenarioIncidents,
      List.countP_cons, AggRow.mk.injEq]
  have hTA : ¬(("Theft" : String) ≤ "Assault") := by
    rw [String.le_iff_toList_le]; decide
  refine ⟨hagg, by simp [markersOf], ?_, ?_⟩
  · rw [hagg]
    simp [markersOf]
  · rw [hagg]
    simp [legendEntries, legendCrimeTypes, crime_types, uniqueFirst,
      uniqueFirstAux, List.insertionSort, List.orderedInsert,
      legendLocationCount, legendEntryText, hTA, List.filter_cons]
    exact ⟨rfl, rfl⟩

/-- C9: individual rows never make the loader raise — any parsed row list
yields a rendered document; the run fails exactly when the source cannot
be opened or parsed, signalling `DataSourceError`; and either the run
succeeds with a written output or it aborts with no output written. -/
theorem C9_failure_only_at_source (src : Option (List RawRow)) :
    (∀ rows : List RawRow, src = some rows →
      main_run src = Except.ok (create_cambridge_crime_map
        (load_and_process_data rows)) ∧
      written_output src = some (create_cambridge_crime_map
        (load_and_process_data rows))) ∧
    (src = none →
      main_run src = Except.error DataSourceError.unreadable ∧
      written_output src = none) ∧
    (∀ e : DataSourceError, main_run src = Except.error e →
      src = none ∧ written_output src = none) := by
  cases src with
  | none =>
      refine ⟨fun rows h => by simp at h, fun _ => ⟨rfl, rfl⟩,
        fun e _ => ⟨rfl, rfl⟩⟩
  | some rows₀ =>
      refine ⟨?_, fun h => by simp at h, ?_⟩
      · intro rows h
        obtain rfl : rows₀ = rows := by
          injection h
        exact ⟨rfl, rfl⟩
      · intro e he
        exact absurd he (by simp [main_run, read_csv])

/-- Witness for C9, at a one-row source that opens and parses. -/
theorem C9_failure_only_at_source_witness :
    main_run (some [exampleRowValid]) = Except.ok
        (create_cambridge_crime_map
          (load_and_process_data [exampleRowValid])) ∧
    written_output (some [exampleRowValid]) = some
        (create_cambridge_crime_map
          (load_and_process_data [exampleRowValid])) :=
  (C9_failure_only_at_source (some [exampleRowValid])).1
    [exampleRowValid] rfl

/-- C10: the color mapping is total over the categories of the aggregate
collection — every aggregate row's category and every legend category has
a color, so neither the marker loop nor the legend loop can hit a missing
key — and every aggregate row has `frequency ≥ 1` and
`total_incidents ≥ 1`. -/
theorem C10_lookup_totality (df : List Incident) :
    (∀ a ∈ aggregate_by_location_and_crime df,
      (color_map (aggregate_by_location_and_crime df) a.crime).isSome ∧
      1 ≤ a.frequency ∧ 1 ≤ a.total_incidents) ∧
    (∀ c ∈ legendCrimeTypes (aggregate_by_location_and_crime df),
      (color_map (aggregate_by_location_and_crime df) c).isSome) := by
  constructor
  · intro a ha
    refine ⟨color_map_isSome (mem_crime_types.mpr ⟨a, ha, rfl⟩), ?_, ?_⟩
    · obtain ⟨k, hk, rfl⟩ := mem_aggregate.mp ha
      exact crimeFrequency_pos (mem_sortedCrimeKeys.mp hk)
    · obtain ⟨k, hk, rfl⟩ := mem_aggregate.mp ha
      exact le_trans (crimeFrequency_pos (mem_sortedCrimeKeys.mp hk))
        (freq_le_total df k)
  · intro c hc
    exact color_map_isSome (mem_legendCrimeTypes.mp hc)

/-- Witness for C10, at the aggregate of `demoDf` and its `"Theft"`
row. -/
theorem C10_lookup_totality_witness :
    (color_map (aggregate_by_location_and_crime demoDf)
        (aggRowOfKey demoDf ((1 : ℚ), (2 : ℚ), "Theft")).crime).isSome ∧
    1 ≤ (aggRowOfKey demoDf ((1 : ℚ), (2 : ℚ), "Theft")).frequency ∧
    1 ≤ (aggRowOfKey demoDf ((1 : ℚ), (2 : ℚ), "Theft")).total_incidents :=
  (C10_lookup_totality demoDf).1
    (aggRowOfKey demoDf ((1 : ℚ), (2 : ℚ), "Theft")) (by decide)

end CambridgeCrimeMap
